import Mathlib

/-!
Verification development for the `params_manager_py` parameter registry.

The Python source (`src/params_manager_py/params_manager.py`) implements a
ROS 2 parameter manager `PManager` with three parts:

* a declaration store `self._params_data` (a Python dict from parameter name
  to a record with keys `type`, `var_name`, `validator`), filled by
  `_add_to_data`;
* an update callback `_on_set_parameters_callback` that walks a batch of
  proposed parameter updates in order, skipping undeclared names, rejecting
  on type mismatch or validator refusal, and writing accepted values into
  host-object attributes;
* a bulk loader `_parse_params_file` that sorts a parsed mapping of raw
  declaration records by name and dispatches each record, by its `type` tag,
  to a per-type declare method, aborting on the first malformed record.

This file gives a shallow embedding of those parts and proves the behavioural
properties stated about them.  Python dicts are modelled as association lists
with first-match lookup and in-place overwrite on insert; the attribute
namespace of the host object is modelled as a function from attribute names to an
optional attribute that is either a plain field value or a callable
predicate; IEEE doubles, which the code only parses and forwards but never
computes with, are carried as their literal text.
-/

namespace PM

/-- the single-quote character, used verbatim inside log and error messages -/
def sq : String := String.singleton (Char.ofNat 39)

/-- tag constants from `rcl_interfaces.msg.ParameterType` -/
def PARAMETER_BOOL : Nat := 1

/-- tag constant for integer parameters -/
def PARAMETER_INTEGER : Nat := 2

/-- tag constant for double parameters -/
def PARAMETER_DOUBLE : Nat := 3

/-- tag constant for string parameters -/
def PARAMETER_STRING : Nat := 4

/-- tag constant for byte-array parameters -/
def PARAMETER_BYTE_ARRAY : Nat := 5

/-- tag constant for bool-array parameters -/
def PARAMETER_BOOL_ARRAY : Nat := 6

/-- tag constant for integer-array parameters -/
def PARAMETER_INTEGER_ARRAY : Nat := 7

/-- tag constant for double-array parameters -/
def PARAMETER_DOUBLE_ARRAY : Nat := 8

/-- tag constant for string-array parameters -/
def PARAMETER_STRING_ARRAY : Nat := 9

/-- one entry of `self._params_data`: the dict built by `_add_to_data`
with keys `type`, `var_name`, `validator` -/
structure ParamData where
  type : Nat
  var_name : String
  validator : String
deriving DecidableEq, Repr

/-- lookup in a Python dict modelled as an association list (first match) -/
def dictGet {α : Type} : List (String × α) → String → Option α
  | [], _ => none
  | (k0, v0) :: rest, k => if k0 = k then some v0 else dictGet rest k

/-- Python dict assignment `d[k] = v`: overwrite in place if the key is
present (keeping its position), append otherwise -/
def dictInsert {α : Type} : List (String × α) → String → α → List (String × α)
  | [], k, v => [(k, v)]
  | (k0, v0) :: rest, k, v =>
    if k0 = k then (k0, v) :: rest else (k0, v0) :: dictInsert rest k v

/-- model of `PManager._add_to_data`: stores type, variable name and
validator name under the parameter name -/
def addToData (d : List (String × ParamData)) (name : String) (type : Nat)
    (var_name : String) (validator : String) : List (String × ParamData) :=
  dictInsert d name { type := type, var_name := var_name, validator := validator }

/-- a proposed parameter update, as `rclpy.parameter.Parameter`: a name, a
runtime type tag and a value.  The callback never inspects the value, so the
value type is a parameter of the embedding. -/
structure Param (V : Type) where
  name : String
  type_ : Nat
  value : V

/-- one attribute of the host node object: either a plain field value or a
callable predicate (Python keeps both in the same attribute namespace, so a
`setattr` can overwrite a method) -/
inductive NodeAttr (V : Type) where
  | fieldVal (v : V)
  | methodVal (f : Param V → Bool)

/-- the mutable state the update callback touches: the declaration store
`self._params_data` and the attribute namespace of the host node -/
structure PManagerState (V : Type) where
  paramsData : List (String × ParamData)
  attrs : String → Option (NodeAttr V)

/-- result object `rcl_interfaces.msg.SetParametersResult` -/
structure SetParametersResult where
  successful : Bool
  reason : String
deriving DecidableEq, Repr

/-- the freshly initialised result: successful true, empty reason -/
def okSetParametersResult : SetParametersResult := { successful := true, reason := "" }

/-- the reason string set on a type mismatch -/
def typeMismatchReason (name : String) : String :=
  "Parameter " ++ sq ++ name ++ sq ++ " type mismatch"

/-- the reason string set on a validator refusal -/
def validationFailedReason (name : String) : String :=
  "Parameter " ++ sq ++ name ++ sq ++ " update validation failed"

/-- model of `getattr(self._node, nm, None)` restricted to its use in the
callback: yields the attribute when it is a callable, `none` when the
attribute is absent or not callable (the code then skips validation) -/
def getattrCallable {V : Type} (attrs : String → Option (NodeAttr V)) (nm : String) :
    Option (Param V → Bool) :=
  match attrs nm with
  | some (NodeAttr.methodVal f) => some f
  | _ => none

/-- the validator gate of the callback: `False` exactly when
`validator is not None and callable(validator) and not validator(p)` -/
def validatorPasses {V : Type} (attrs : String → Option (NodeAttr V)) (vname : String)
    (p : Param V) : Bool :=
  match getattrCallable attrs vname with
  | some f => f p
  | none => true

/-- model of `if hasattr(self._node, vn): setattr(self._node, vn, v)` -/
def applyVarName {V : Type} (attrs : String → Option (NodeAttr V)) (vn : String) (v : V) :
    String → Option (NodeAttr V) :=
  match attrs vn with
  | some _ => fun n => if n = vn then some (NodeAttr.fieldVal v) else attrs n
  | none => attrs

/-- model of `PManager._on_set_parameters_callback`: walk the batch in
order; skip undeclared names; return a failure result on the first type
mismatch or validator refusal, leaving the state as it was at that point;
otherwise write the value into the backing attribute when it exists and
continue.  Logging is a side effect outside the model. -/
def onSetParametersCallback {V : Type} :
    PManagerState V → List (Param V) → SetParametersResult × PManagerState V
  | s, [] => (okSetParametersResult, s)
  | s, p :: rest =>
    match dictGet s.paramsData p.name with
    | none => onSetParametersCallback s rest
    | some pd =>
      if p.type_ ≠ pd.type then
        ({ successful := false, reason := typeMismatchReason p.name }, s)
      else if validatorPasses s.attrs pd.validator p = false then
        ({ successful := false, reason := validationFailedReason p.name }, s)
      else
        onSetParametersCallback
          { paramsData := s.paramsData, attrs := applyVarName s.attrs pd.var_name p.value } rest

/-- Spec-side reference semantics of the success path of the Update Transactor
(spec section 4.2, steps 2a-2d): process the batch in order, skipping
unknown names, applying each item that passes the type check and the
validator to its resolvable backing field, and yield `none` as soon as any
item is rejected.  Written from the words of the spec, to be compared with
`onSetParametersCallback`. -/
def specApplyBatch {V : Type} :
    PManagerState V → List (Param V) → Option (PManagerState V)
  | s, [] => some s
  | s, p :: rest =>
    match dictGet s.paramsData p.name with
    | none => specApplyBatch s rest
    | some pd =>
      if p.type_ ≠ pd.type then none
      else if validatorPasses s.attrs pd.validator p = false then none
      else specApplyBatch
        { paramsData := s.paramsData, attrs := applyVarName s.attrs pd.var_name p.value } rest

/-- message `rcl_interfaces.msg.IntegerRange` -/
structure IntegerRange where
  from_value : Int
  to_value : Int
  step : Int
deriving DecidableEq, Repr

/-- message `rcl_interfaces.msg.FloatingPointRange`; the double fields are
carried as their literal text, since the code never computes with them -/
structure FloatingPointRange where
  from_value : String
  to_value : String
  step : String
deriving DecidableEq, Repr

/-- message `rcl_interfaces.msg.ParameterDescriptor`, restricted to the
fields the code sets -/
structure ParameterDescriptor where
  name : String
  type : Nat
  description : String
  additional_constraints : String
  read_only : Bool
  dynamic_typing : Bool
  integer_range : List IntegerRange
  floating_point_range : List FloatingPointRange
deriving DecidableEq, Repr

/-- a typed default value handed to `node.declare_parameter`; doubles are
carried as their literal text -/
inductive DefaultVal where
  | dBool (v : Bool)
  | dInt (v : Int)
  | dDouble (v : String)
  | dStr (v : String)
  | dBoolArr (v : List Bool)
  | dIntArr (v : List Int)
  | dDoubleArr (v : List String)
  | dStrArr (v : List String)
  | dByteArr (v : List Nat)
deriving DecidableEq, Repr

/-- record of one `self._node.declare_parameter(name, default, descriptor)`
call forwarded to the host framework -/
structure NativeDecl where
  name : String
  value : DefaultVal
  descriptor : ParameterDescriptor
deriving DecidableEq, Repr

/-- state touched by the declare methods: the declaration store plus the
ordered record of declarations forwarded to the host framework -/
structure BootState where
  paramsData : List (String × ParamData)
  declaredParams : List NativeDecl
deriving DecidableEq, Repr

/-- model of `PManager._declare_bool_parameter` -/
def declareBoolParameter (st : BootState) (name : String) (default_val : Bool)
    (desc : String) (constraints : String) (read_only : Bool)
    (var_name : String) (validator : String) : BootState :=
  { paramsData := addToData st.paramsData name PARAMETER_BOOL var_name validator,
    declaredParams := st.declaredParams ++
      [{ name := name, value := DefaultVal.dBool default_val,
         descriptor :=
           { name := name, type := PARAMETER_BOOL, description := desc,
             additional_constraints := constraints, read_only := read_only,
             dynamic_typing := false, integer_range := [],
             floating_point_range := [] } }] }

/-- model of `PManager._declare_bool_array_parameter` -/
def declareBoolArrayParameter (st : BootState) (name : String)
    (default_val : List Bool) (desc : String) (constraints : String)
    (read_only : Bool) (var_name : String) (validator : String) : BootState :=
  { paramsData := addToData st.paramsData name PARAMETER_BOOL_ARRAY var_name validator,
    declaredParams := st.declaredParams ++
      [{ name := name, value := DefaultVal.dBoolArr default_val,
         descriptor :=
           { name := name, type := PARAMETER_BOOL_ARRAY, description := desc,
             additional_constraints := constraints, read_only := read_only,
             dynamic_typing := false, integer_range := [],
             floating_point_range := [] } }] }

/-- model of `PManager._declare_integer_parameter` -/
def declareIntegerParameter (st : BootState) (name : String) (default_val : Int)
    (from_val : Int) (to_val : Int) (step : Int) (desc : String)
    (constraints : String) (read_only : Bool) (var_name : String)
    (validator : String) : BootState :=
  { paramsData := addToData st.paramsData name PARAMETER_INTEGER var_name validator,
    declaredParams := st.declaredParams ++
      [{ name := name, value := DefaultVal.dInt default_val,
         descriptor :=
           { name := name, type := PARAMETER_INTEGER, description := desc,
             additional_constraints := constraints, read_only := read_only,
             dynamic_typing := false,
             integer_range := [{ from_value := from_val, to_value := to_val, step := step }],
             floating_point_range := [] } }] }

/-- model of `PManager._declare_integer_array_parameter` -/
def declareIntegerArrayParameter (st : BootState) (name : String)
    (default_val : List Int) (from_val : Int) (to_val : Int) (step : Int)
    (desc : String) (constraints : String) (read_only : Bool)
    (var_name : String) (validator : String) : BootState :=
  { paramsData := addToData st.paramsData name PARAMETER_INTEGER_ARRAY var_name validator,
    declaredParams := st.declaredParams ++
      [{ name := name, value := DefaultVal.dIntArr default_val,
         descriptor :=
           { name := name, type := PARAMETER_INTEGER_ARRAY, description := desc,
             additional_constraints := constraints, read_only := read_only,
             dynamic_typing := false,
             integer_range := [{ from_value := from_val, to_value := to_val, step := step }],
             floating_point_range := [] } }] }

/-- model of `PManager._declare_double_parameter` -/
def declareDoubleParameter (st : BootState) (name : String) (default_val : String)
    (from_val : String) (to_val : String) (step : String) (desc : String)
    (constraints : String) (read_only : Bool) (var_name : String)
    (validator : String) : BootState :=
  { paramsData := addToData st.paramsData name PARAMETER_DOUBLE var_name validator,
    declaredParams := st.declaredParams ++
      [{ name := name, value := DefaultVal.dDouble default_val,
         descriptor :=
           { name := name, type := PARAMETER_DOUBLE, description := desc,
             additional_constraints := constraints, read_only := read_only,
             dynamic_typing := false, integer_range := [],
             floating_point_range :=
               [{ from_value := from_val, to_value := to_val, step := step }] } }] }

/-- model of `PManager._declare_double_array_parameter` -/
def declareDoubleArrayParameter (st : BootState) (name : String)
    (default_val : List String) (from_val : String) (to_val : String)
    (step : String) (desc : String) (constraints : String) (read_only : Bool)
    (var_name : String) (validator : String) : BootState :=
  { paramsData := addToData st.paramsData name PARAMETER_DOUBLE_ARRAY var_name validator,
    declaredParams := st.declaredParams ++
      [{ name := name, value := DefaultVal.dDoubleArr default_val,
         descriptor :=
           { name := name, type := PARAMETER_DOUBLE_ARRAY, description := desc,
             additional_constraints := constraints, read_only := read_only,
             dynamic_typing := false, integer_range := [],
             floating_point_range :=
               [{ from_value := from_val, to_value := to_val, step := step }] } }] }

/-- model of `PManager._declare_string_parameter` -/
def declareStringParameter (st : BootState) (name : String) (default_val : String)
    (desc : String) (constraints : String) (read_only : Bool)
    (var_name : String) (validator : String) : BootState :=
  { paramsData := addToData st.paramsData name PARAMETER_STRING var_name validator,
    declaredParams := st.declaredParams ++
      [{ name := name, value := DefaultVal.dStr default_val,
         descriptor :=
           { name := name, type := PARAMETER_STRING, description := desc,
             additional_constraints := constraints, read_only := read_only,
             dynamic_typing := false, integer_range := [],
             floating_point_range := [] } }] }

/-- model of `PManager._declare_string_array_parameter` -/
def declareStringArrayParameter (st : BootState) (name : String)
    (default_val : List String) (desc : String) (constraints : String)
    (read_only : Bool) (var_name : String) (validator : String) : BootState :=
  { paramsData := addToData st.paramsData name PARAMETER_STRING_ARRAY var_name validator,
    declaredParams := st.declaredParams ++
      [{ name := name, value := DefaultVal.dStrArr default_val,
         descriptor :=
           { name := name, type := PARAMETER_STRING_ARRAY, description := desc,
             additional_constraints := constraints, read_only := read_only,
             dynamic_typing := false, integer_range := [],
             floating_point_range := [] } }] }

/-- model of `PManager.declare_byte_array_parameter` -/
def declareByteArrayParameter (st : BootState) (name : String)
    (default_val : List Nat) (desc : String) (constraints : String)
    (read_only : Bool) (var_name : String) (validator : String) : BootState :=
  { paramsData := addToData st.paramsData name PARAMETER_BYTE_ARRAY var_name validator,
    declaredParams := st.declaredParams ++
      [{ name := name, value := DefaultVal.dByteArr default_val,
         descriptor :=
           { name := name, type := PARAMETER_BYTE_ARRAY, description := desc,
             additional_constraints := constraints, read_only := read_only,
             dynamic_typing := false, integer_range := [],
             floating_point_range := [] } }] }

/-- model of `PManager._parse_bool_str`; the error payload is the message of
the `ValueError` the code raises -/
def parseBoolStr (word : String) : Except String Bool :=
  if word = "true" ∨ word = "True" then Except.ok true
  else if word = "false" ∨ word = "False" then Except.ok false
  else Except.error ("Unknown boolean text representation: " ++ word)

/-- value of one field of a raw declaration record, after YAML parsing:
either a scalar (carried as its text) or a list of scalar texts -/
inductive FieldVal where
  | scalar (s : String)
  | arr (vs : List String)
deriving DecidableEq, Repr

/-- one raw declaration record, the `values` mapping of one entry under the
top-level `params` key -/
abbrev RawRecord := List (String × FieldVal)

/-- model of `values[k]`: `KeyError` when the field is missing; the error
payload is `str` of the `KeyError`, which is the quoted key -/
def pyGet (values : RawRecord) (k : String) : Except String FieldVal :=
  match dictGet values k with
  | some v => Except.ok v
  | none => Except.error (sq ++ k ++ sq)

/-- model of `values.get(k, d)` for a string default -/
def pyGetDefault (values : RawRecord) (k : String) (d : String) : FieldVal :=
  match dictGet values k with
  | some v => v
  | none => FieldVal.scalar d

/-- model of Python `str(...)` on a raw field value; list values render in
their bracketed form (only reached on malformed records) -/
def pyStrOfField : FieldVal → String
  | FieldVal.scalar s => s
  | FieldVal.arr vs =>
    "[" ++ String.intercalate ", " (vs.map (fun v => sq ++ v ++ sq)) ++ "]"

/-- model of Python `list(...)` on a raw field value; `list` of a scalar
string iterates its characters -/
def pyListOfField : FieldVal → List String
  | FieldVal.scalar s => s.toList.map String.singleton
  | FieldVal.arr vs => vs

/-- conservative model of the Python `int(...)` builtin on text: plain
decimal numerals with an optional sign (no whitespace or underscore
handling); the error payload is the `ValueError` message -/
def pyIntStr (s : String) : Except String Int :=
  match s.toInt? with
  | some n => Except.ok n
  | none =>
    Except.error ("invalid literal for int() with base 10: " ++ sq ++ s ++ sq)

/-- model of `int(...)` on a raw field value; a list argument raises a
`TypeError` -/
def pyIntOfField : FieldVal → Except String Int
  | FieldVal.scalar s => pyIntStr s
  | FieldVal.arr _ =>
    Except.error "int() argument must be a string, a bytes-like object or a real number, not list"

/-- checks that a string is a plain decimal float literal (optional sign,
digits, at most one dot); conservative model of what `float(...)` accepts -/
def floatLiteralOk (s : String) : Bool :=
  let t := if s.startsWith "-" then s.drop 1 else s
  t.length > 0 && t.all (fun c => c.isDigit || c = '.') &&
    (t.toList.filter (fun c => c = '.')).length ≤ 1 &&
    t.any Char.isDigit

/-- conservative model of the Python `float(...)` builtin on text; the
value is kept as its literal text -/
def pyFloatStr (s : String) : Except String String :=
  if floatLiteralOk s then Except.ok s
  else Except.error ("could not convert string to float: " ++ sq ++ s ++ sq)

/-- model of `float(...)` on a raw field value -/
def pyFloatOfField : FieldVal → Except String String
  | FieldVal.scalar s => pyFloatStr s
  | FieldVal.arr _ =>
    Except.error "float() argument must be a string or a real number, not list"

/-- model of the per-record body of the loop in `PManager._parse_params_file`
(the `try` block): dispatch on the `type` tag of the record, parse every
field in the evaluation order of the source, and perform the matching
declare method; any failure is reported as the message of the raised
exception -/
def declareFromRecord (st : BootState) (param_name : String) (values : RawRecord) :
    Except String BootState := do
  let tyv ← pyGet values "type"
  if tyv = FieldVal.scalar "integer" then
    let dv ← pyIntOfField (← pyGet values "default_value")
    let mn ← pyIntOfField (← pyGet values "min_value")
    let mx ← pyIntOfField (← pyGet values "max_value")
    let stp ← pyIntOfField (← pyGet values "step")
    let desc := pyStrOfField (← pyGet values "description")
    let cons := pyStrOfField (← pyGet values "constraints")
    let ro ← parseBoolStr (pyStrOfField (← pyGet values "read_only"))
    let vn := pyStrOfField (pyGetDefault values "var_name" "")
    let vl := pyStrOfField (pyGetDefault values "validator" "")
    pure (declareIntegerParameter st param_name dv mn mx stp desc cons ro vn vl)
  else if tyv = FieldVal.scalar "double" then
    let dv ← pyFloatOfField (← pyGet values "default_value")
    let mn ← pyFloatOfField (← pyGet values "min_value")
    let mx ← pyFloatOfField (← pyGet values "max_value")
    let stp ← pyFloatOfField (← pyGet values "step")
    let desc := pyStrOfField (← pyGet values "description")
    let cons := pyStrOfField (← pyGet values "constraints")
    let ro ← parseBoolStr (pyStrOfField (← pyGet values "read_only"))
    let vn := pyStrOfField (pyGetDefault values "var_name" "")
    let vl := pyStrOfField (pyGetDefault values "validator" "")
    pure (declareDoubleParameter st param_name dv mn mx stp desc cons ro vn vl)
  else if tyv = FieldVal.scalar "bool" then
    let dv ← parseBoolStr (pyStrOfField (← pyGet values "default_value"))
    let desc := pyStrOfField (← pyGet values "description")
    let cons := pyStrOfField (← pyGet values "constraints")
    let ro ← parseBoolStr (pyStrOfField (← pyGet values "read_only"))
    let vn := pyStrOfField (pyGetDefault values "var_name" "")
    let vl := pyStrOfField (pyGetDefault values "validator" "")
    pure (declareBoolParameter st param_name dv desc cons ro vn vl)
  else if tyv = FieldVal.scalar "string" then
    let dv := pyStrOfField (← pyGet values "default_value")
    let desc := pyStrOfField (← pyGet values "description")
    let cons := pyStrOfField (← pyGet values "constraints")
    let ro ← parseBoolStr (pyStrOfField (← pyGet values "read_only"))
    let vn := pyStrOfField (pyGetDefault values "var_name" "")
    let vl := pyStrOfField (pyGetDefault values "validator" "")
    pure (declareStringParameter st param_name dv desc cons ro vn vl)
  else if tyv = FieldVal.scalar "integer_array" then
    let dvs ← (pyListOfField (← pyGet values "default_value")).mapM pyIntStr
    let mn ← pyIntOfField (← pyGet values "min_value")
    let mx ← pyIntOfField (← pyGet values "max_value")
    let stp ← pyIntOfField (← pyGet values "step")
    let desc := pyStrOfField (← pyGet values "description")
    let cons := pyStrOfField (← pyGet values "constraints")
    let ro ← parseBoolStr (pyStrOfField (← pyGet values "read_only"))
    let vn := pyStrOfField (pyGetDefault values "var_name" "")
    let vl := pyStrOfField (pyGetDefault values "validator" "")
    pure (declareIntegerArrayParameter st param_name dvs mn mx stp desc cons ro vn vl)
  else if tyv = FieldVal.scalar "double_array" then
    let dvs ← (pyListOfField (← pyGet values "default_value")).mapM pyFloatStr
    let mn ← pyFloatOfField (← pyGet values "min_value")
    let mx ← pyFloatOfField (← pyGet values "max_value")
    let stp ← pyFloatOfField (← pyGet values "step")
    let desc := pyStrOfField (← pyGet values "description")
    let cons := pyStrOfField (← pyGet values "constraints")
    let ro ← parseBoolStr (pyStrOfField (← pyGet values "read_only"))
    let vn := pyStrOfField (pyGetDefault values "var_name" "")
    let vl := pyStrOfField (pyGetDefault values "validator" "")
    pure (declareDoubleArrayParameter st param_name dvs mn mx stp desc cons ro vn vl)
  else if tyv = FieldVal.scalar "bool_array" then
    let dvs ← (pyListOfField (← pyGet values "default_value")).mapM parseBoolStr
    let desc := pyStrOfField (← pyGet values "description")
    let cons := pyStrOfField (← pyGet values "constraints")
    let ro ← parseBoolStr (pyStrOfField (← pyGet values "read_only"))
    let vn := pyStrOfField (pyGetDefault values "var_name" "")
    let vl := pyStrOfField (pyGetDefault values "validator" "")
    pure (declareBoolArrayParameter st param_name dvs desc cons ro vn vl)
  else if tyv = FieldVal.scalar "string_array" then
    let dvs := pyListOfField (← pyGet values "default_value")
    let desc := pyStrOfField (← pyGet values "description")
    let cons := pyStrOfField (← pyGet values "constraints")
    let ro ← parseBoolStr (pyStrOfField (← pyGet values "read_only"))
    let vn := pyStrOfField (pyGetDefault values "var_name" "")
    let vl := pyStrOfField (pyGetDefault values "validator" "")
    pure (declareStringArrayParameter st param_name dvs desc cons ro vn vl)
  else
    Except.error ("Unsupported parameter type: " ++ pyStrOfField tyv)

/-- boolean code-point lexicographic comparison on character lists, the
order Python uses to compare strings -/
def lexLeChars : List Char → List Char → Bool
  | [], _ => true
  | _ :: _, [] => false
  | c :: cs, d :: ds =>
    if c < d then true
    else if d < c then false
    else lexLeChars cs ds

/-- boolean lexicographic string comparison; proven equivalent to the
standard string order below -/
def strLeB (a b : String) : Bool := lexLeChars a.toList b.toList

/-- model of the `dict(sorted(...items()))` line applied to the `params`
mapping: the record list in lexicographically sorted name order.  The
Python builtin `sorted` is a stable
comparison sort and the keys of a dict are unique, so every sort that
produces ascending key order yields the same list; insertion sort is used
here.  The tuple comparison Python performs never reaches the record
components, again because keys are unique. -/
def sortedByName (items : List (String × RawRecord)) : List (String × RawRecord) :=
  items.insertionSort (fun a b => strLeB a.1 b.1 = true)

/-- the declare loop of `PManager._parse_params_file` over an already-sorted
record list: process records in order; on the first failing record stop and
report the `RuntimeError` message, keeping the state reached so far (raising
does not roll back earlier declarations) -/
def loaderGo : BootState → List (String × RawRecord) → BootState × Option String
  | st, [] => (st, none)
  | st, (nm, values) :: rest =>
    match declareFromRecord st nm values with
    | Except.ok st' => loaderGo st' rest
    | Except.error e =>
      (st, some ("Failed to parse configuration of parameter " ++ nm ++ ": " ++ e))

/-- model of the declaration phase of `PManager._parse_params_file` (from
the `dict(sorted(...))` line onward): sort the parsed mapping by name and
run the declare loop -/
def parseParamsItems (st : BootState) (items : List (String × RawRecord)) :
    BootState × Option String :=
  loaderGo st (sortedByName items)

/-- reference run of the declare loop that yields the reached state only
when every record succeeds; used to state which prefix of the sorted input
was applied before a failure -/
def loaderOkRun : BootState → List (String × RawRecord) → Option BootState
  | st, [] => some st
  | st, (nm, values) :: rest =>
    match declareFromRecord st nm values with
    | Except.ok st' => loaderOkRun st' rest
    | Except.error _ => none

/-- a host attribute table with no attributes at all -/
def noAttrs {V : Type} : String → Option (NodeAttr V) := fun _ => none

/-- a host attribute table with a single plain field -/
def oneField {V : Type} (n : String) (v : V) : String → Option (NodeAttr V) :=
  fun m => if m = n then some (NodeAttr.fieldVal v) else none

/-- reads a plain field value out of a host attribute table -/
def getFieldValue {V : Type} (attrs : String → Option (NodeAttr V)) (n : String) :
    Option V :=
  match attrs n with
  | some (NodeAttr.fieldVal v) => some v
  | _ => none

/-! Helper lemmas about the dictionary model and the callback. -/

theorem dictGet_dictInsert_self {α : Type} (d : List (String × α)) (k : String) (v : α) :
    dictGet (dictInsert d k v) k = some v := by
  induction d with
  | nil => simp [dictInsert, dictGet]
  | cons hd tl ih =>
    obtain ⟨k0, v0⟩ := hd
    by_cases h : k0 = k
    · simp [dictInsert, dictGet, h]
    · simp [dictInsert, dictGet, h, ih]

theorem dictGet_dictInsert_ne {α : Type} (d : List (String × α)) (k m : String) (v : α)
    (h : m ≠ k) : dictGet (dictInsert d k v) m = dictGet d m := by
  induction d with
  | nil =>
    simp only [dictInsert, dictGet]
    rw [if_neg (fun hh => h hh.symm)]
  | cons hd tl ih =>
    obtain ⟨k0, v0⟩ := hd
    by_cases h0 : k0 = k
    · subst h0
      simp only [dictInsert, if_pos rfl, dictGet]
      rw [if_neg (fun hh => h hh.symm), if_neg (fun hh => h hh.symm)]
    · simp only [dictInsert, if_neg h0, dictGet]
      by_cases h1 : k0 = m
      · simp [h1]
      · simp [h1, ih]

theorem onSet_append_of_specApply {V : Type} (pre : List (Param V)) :
    ∀ (s s2 : PManagerState V) (rest : List (Param V)),
      specApplyBatch s pre = some s2 →
      onSetParametersCallback s (pre ++ rest) = onSetParametersCallback s2 rest := by
  induction pre with
  | nil =>
    intro s s2 rest h
    simp only [specApplyBatch, Option.some.injEq] at h
    subst h
    simp
  | cons p pre ih =>
    intro s s2 rest h
    simp only [List.cons_append]
    rw [onSetParametersCallback]
    rw [specApplyBatch] at h
    cases hdg : dictGet s.paramsData p.name with
    | none =>
      simp only [hdg] at h ⊢
      exact ih s s2 rest h
    | some pd =>
      simp only [hdg] at h ⊢
      by_cases hty : p.type_ ≠ pd.type
      · simp only [if_pos hty] at h
        exact absurd h (by simp)
      · simp only [if_neg hty] at h ⊢
        by_cases hval : validatorPasses s.attrs pd.validator p = false
        · simp only [if_pos hval] at h
          exact absurd h (by simp)
        · simp only [if_neg hval] at h ⊢
          exact ih _ s2 rest h

/-- C10: the update callback never mutates the declaration store: whatever
the batch and starting state, the store component of the state after the
callback equals the store component before it. -/
theorem update_callback_preserves_store {V : Type} (s : PManagerState V)
    (params : List (Param V)) :
    ((onSetParametersCallback s params).2).paramsData = s.paramsData := by
  induction params generalizing s with
  | nil => rfl
  | cons p rest ih =>
    rw [onSetParametersCallback]
    cases hdg : dictGet s.paramsData p.name with
    | none => exact ih s
    | some pd =>
      by_cases hty : p.type_ ≠ pd.type
      · simp [hty]
      · by_cases hval : validatorPasses s.attrs pd.validator p = false
        · simp [hty, hval]
        · simp only [hty, hval, if_neg, if_false]
          exact ih _

theorem onSet_cons_unknown {V : Type} (s : PManagerState V) (p : Param V)
    (rest : List (Param V)) (hdg : dictGet s.paramsData p.name = none) :
    onSetParametersCallback s (p :: rest) = onSetParametersCallback s rest := by
  rw [onSetParametersCallback, hdg]

theorem onSet_cons_mismatch {V : Type} (s : PManagerState V) (p : Param V)
    (rest : List (Param V)) (pd : ParamData)
    (hdg : dictGet s.paramsData p.name = some pd) (hty : p.type_ ≠ pd.type) :
    onSetParametersCallback s (p :: rest) =
      ({ successful := false, reason := typeMismatchReason p.name }, s) := by
  rw [onSetParametersCallback, hdg]
  simp only [if_pos hty]

theorem onSet_cons_valfail {V : Type} (s : PManagerState V) (p : Param V)
    (rest : List (Param V)) (pd : ParamData)
    (hdg : dictGet s.paramsData p.name = some pd) (hty : ¬p.type_ ≠ pd.type)
    (hval : validatorPasses s.attrs pd.validator p = false) :
    onSetParametersCallback s (p :: rest) =
      ({ successful := false, reason := validationFailedReason p.name }, s) := by
  rw [onSetParametersCallback, hdg]
  simp only [if_neg hty, if_pos hval]

theorem onSet_cons_accept {V : Type} (s : PManagerState V) (p : Param V)
    (rest : List (Param V)) (pd : ParamData)
    (hdg : dictGet s.paramsData p.name = some pd) (hty : ¬p.type_ ≠ pd.type)
    (hval : ¬validatorPasses s.attrs pd.validator p = false) :
    onSetParametersCallback s (p :: rest) =
      onSetParametersCallback
        { paramsData := s.paramsData, attrs := applyVarName s.attrs pd.var_name p.value } rest := by
  rw [onSetParametersCallback, hdg]
  simp only [if_neg hty, if_neg hval]

theorem specApply_cons_unknown {V : Type} (s : PManagerState V) (p : Param V)
    (rest : List (Param V)) (hdg : dictGet s.paramsData p.name = none) :
    specApplyBatch s (p :: rest) = specApplyBatch s rest := by
  rw [specApplyBatch, hdg]

theorem specApply_cons_mismatch {V : Type} (s : PManagerState V) (p : Param V)
    (rest : List (Param V)) (pd : ParamData)
    (hdg : dictGet s.paramsData p.name = some pd) (hty : p.type_ ≠ pd.type) :
    specApplyBatch s (p :: rest) = none := by
  rw [specApplyBatch, hdg]
  simp only [if_pos hty]

theorem specApply_cons_valfail {V : Type} (s : PManagerState V) (p : Param V)
    (rest : List (Param V)) (pd : ParamData)
    (hdg : dictGet s.paramsData p.name = some pd) (hty : ¬p.type_ ≠ pd.type)
    (hval : validatorPasses s.attrs pd.validator p = false) :
    specApplyBatch s (p :: rest) = none := by
  rw [specApplyBatch, hdg]
  simp only [if_neg hty, if_pos hval]

theorem specApply_cons_accept {V : Type} (s : PManagerState V) (p : Param V)
    (rest : List (Param V)) (pd : ParamData)
    (hdg : dictGet s.paramsData p.name = some pd) (hty : ¬p.type_ ≠ pd.type)
    (hval : ¬validatorPasses s.attrs pd.validator p = false) :
    specApplyBatch s (p :: rest) =
      specApplyBatch
        { paramsData := s.paramsData, attrs := applyVarName s.attrs pd.var_name p.value } rest := by
  rw [specApplyBatch, hdg]
  simp only [if_neg hty, if_neg hval]

/-- the ways the callback can reject a single batch item in a given state:
the item has a declared name and either its type tag mismatches (rejected
with the type-mismatch reason) or its type matches and the resolvable
validator refuses it (rejected with the validation-failed reason) -/
def rejectedItem {V : Type} (s2 : PManagerState V) (p : Param V)
    (res : SetParametersResult) : Prop :=
  ∃ pd, dictGet s2.paramsData p.name = some pd ∧
    ((p.type_ ≠ pd.type ∧ res.reason = typeMismatchReason p.name) ∨
     (p.type_ = pd.type ∧ validatorPasses s2.attrs pd.validator p = false ∧
       res.reason = validationFailedReason p.name))

theorem typeMismatchReason_names (name : String) :
    ∃ a b, typeMismatchReason name = a ++ name ++ b := by
  refine ⟨"Parameter " ++ sq, sq ++ " type mismatch", ?_⟩
  simp only [typeMismatchReason, String.append_assoc]

theorem validationFailedReason_names (name : String) :
    ∃ a b, validationFailedReason name = a ++ name ++ b := by
  refine ⟨"Parameter " ++ sq, sq ++ " update validation failed", ?_⟩
  simp only [validationFailedReason, String.append_assoc]

/-- C1: the update callback either applies the whole batch exactly as the
spec-side reference semantics `specApplyBatch` prescribes and reports
success with an empty reason, or the batch splits as `pre ++ p :: post`
where the reference semantics applies all of `pre` (the items strictly
before the failure), item `p` is rejected in the state reached after `pre`,
the final state is exactly that intermediate state (so neither `p` nor any
later item writes a backing field), and the returned reason names the
failing parameter. -/
theorem update_callback_short_circuits {V : Type} (s : PManagerState V)
    (params : List (Param V)) :
    ((onSetParametersCallback s params).1 = okSetParametersResult ∧
      specApplyBatch s params = some (onSetParametersCallback s params).2) ∨
    (∃ pre p post s2, params = pre ++ p :: post ∧
      specApplyBatch s pre = some s2 ∧
      (onSetParametersCallback s params).2 = s2 ∧
      (onSetParametersCallback s params).1.successful = false ∧
      rejectedItem s2 p (onSetParametersCallback s params).1 ∧
      (∃ a b, (onSetParametersCallback s params).1.reason = a ++ p.name ++ b)) := by
  induction params generalizing s with
  | nil => exact Or.inl ⟨rfl, rfl⟩
  | cons p rest ih =>
    cases hdg : dictGet s.paramsData p.name with
    | none =>
      rw [onSet_cons_unknown s p rest hdg, specApply_cons_unknown s p rest hdg]
      rcases ih s with hok | ⟨pre, q, post, s2, hsplit, hpre, hst, hsf, hrej, hnm⟩
      · exact Or.inl hok
      · refine Or.inr ⟨p :: pre, q, post, s2,
          by rw [hsplit, List.cons_append], ?_, hst, hsf, hrej, hnm⟩
        rw [specApply_cons_unknown s p pre hdg]
        exact hpre
    | some pd =>
      by_cases hty : p.type_ ≠ pd.type
      · rw [onSet_cons_mismatch s p rest pd hdg hty]
        refine Or.inr ⟨[], p, rest, s, rfl, rfl, rfl, rfl, ?_, ?_⟩
        · exact ⟨pd, hdg, Or.inl ⟨hty, rfl⟩⟩
        · exact typeMismatchReason_names p.name
      · by_cases hval : validatorPasses s.attrs pd.validator p = false
        · rw [onSet_cons_valfail s p rest pd hdg hty hval]
          refine Or.inr ⟨[], p, rest, s, rfl, rfl, rfl, rfl, ?_, ?_⟩
          · exact ⟨pd, hdg, Or.inr ⟨not_not.mp hty, hval, rfl⟩⟩
          · exact validationFailedReason_names p.name
        · rw [onSet_cons_accept s p rest pd hdg hty hval,
            specApply_cons_accept s p rest pd hdg hty hval]
          rcases ih { paramsData := s.paramsData, attrs := applyVarName s.attrs pd.var_name p.value }
            with hok | ⟨pre, q, post, s2, hsplit, hpre, hst, hsf, hrej, hnm⟩
          · exact Or.inl hok
          · refine Or.inr ⟨p :: pre, q, post, s2,
              by rw [hsplit, List.cons_append], ?_, hst, hsf, hrej, hnm⟩
            rw [specApply_cons_accept s p pre pd hdg hty hval]
            exact hpre

/-- C3: a batch consisting only of names absent from the declaration store
is accepted with an empty reason and changes nothing: unknown names are
skipped silently, never an error. -/
theorem unknown_names_are_skipped {V : Type} (s : PManagerState V)
    (params : List (Param V))
    (h : ∀ p ∈ params, dictGet s.paramsData p.name = none) :
    onSetParametersCallback s params = (okSetParametersResult, s) := by
  induction params with
  | nil => rfl
  | cons p rest ih =>
    rw [onSetParametersCallback]
    rw [h p (by simp)]
    exact ih (fun q hq => h q (by simp [hq]))

/-- Witness for C3: a one-item batch naming an undeclared parameter is
accepted, with no field write and no crash. -/
theorem unknown_names_are_skipped_witness :
    onSetParametersCallback
        (⟨[("q", ⟨PARAMETER_BOOL, "f", ""⟩)], (noAttrs : String → Option (NodeAttr Bool))⟩ :
          PManagerState Bool)
        [⟨"unregistered", PARAMETER_BOOL, true⟩] =
      (okSetParametersResult,
        ⟨[("q", ⟨PARAMETER_BOOL, "f", ""⟩)], (noAttrs : String → Option (NodeAttr Bool))⟩) :=
  unknown_names_are_skipped _ _ (by decide)

/-- Counterexample for C2 as stated: on a type mismatch the callback does
reject, but the reason text is `Parameter <name> type mismatch` (name
single-quoted), not `type mismatch for <name>` as the claim asserts. -/
theorem type_mismatch_reason_text_cex :
    (onSetParametersCallback
        (⟨[("p", ⟨PARAMETER_BOOL, "f", ""⟩)], (noAttrs : String → Option (NodeAttr Bool))⟩ :
          PManagerState Bool)
        [⟨"p", PARAMETER_INTEGER, true⟩]).1.successful = false ∧
    (onSetParametersCallback
        (⟨[("p", ⟨PARAMETER_BOOL, "f", ""⟩)], (noAttrs : String → Option (NodeAttr Bool))⟩ :
          PManagerState Bool)
        [⟨"p", PARAMETER_INTEGER, true⟩]).1.reason =
      "Parameter " ++ sq ++ "p" ++ sq ++ " type mismatch" ∧
    (onSetParametersCallback
        (⟨[("p", ⟨PARAMETER_BOOL, "f", ""⟩)], (noAttrs : String → Option (NodeAttr Bool))⟩ :
          PManagerState Bool)
        [⟨"p", PARAMETER_INTEGER, true⟩]).1.reason ≠ "type mismatch for p" := by
  refine ⟨by decide, by decide, by decide⟩

/-- C2 amended: whenever batch processing reaches a declared item whose
runtime type tag differs from the declared type, the callback returns a
result with `successful = false` and reason `Parameter <name> type
mismatch` (name single-quoted), and stops immediately: the returned state is the state reached
before that item, independent of all later items. -/
theorem type_mismatch_rejects_and_stops {V : Type} (s s2 : PManagerState V)
    (pre post : List (Param V)) (p : Param V) (pd : ParamData)
    (hpre : specApplyBatch s pre = some s2)
    (hdecl : dictGet s2.paramsData p.name = some pd)
    (hty : p.type_ ≠ pd.type) :
    onSetParametersCallback s (pre ++ p :: post) =
      ({ successful := false, reason := typeMismatchReason p.name }, s2) := by
  rw [onSet_append_of_specApply pre s s2 _ hpre]
  exact onSet_cons_mismatch s2 p post pd hdecl hty

/-- Witness for the amended C2: a concrete two-item batch whose first item
mismatches is rejected with the exact reason text and the second item is
never examined. -/
theorem type_mismatch_rejects_and_stops_witness :
    onSetParametersCallback
        (⟨[("p", ⟨PARAMETER_BOOL, "f", ""⟩)], (noAttrs : String → Option (NodeAttr Bool))⟩ :
          PManagerState Bool)
        [⟨"p", PARAMETER_INTEGER, true⟩, ⟨"p", PARAMETER_BOOL, false⟩] =
      ({ successful := false, reason := typeMismatchReason "p" },
        ⟨[("p", ⟨PARAMETER_BOOL, "f", ""⟩)], (noAttrs : String → Option (NodeAttr Bool))⟩) :=
  type_mismatch_rejects_and_stops _ _ [] [⟨"p", PARAMETER_BOOL, false⟩] _
    ⟨PARAMETER_BOOL, "f", ""⟩ rfl rfl (by decide)

/-- Counterexample for C4 as stated: when a resolvable validator rejects,
the callback does reject, but the reason text is `Parameter <name> update
validation failed` (name single-quoted), not `validation failed for <name>`
as the claim asserts. -/
theorem validation_reason_text_cex :
    (onSetParametersCallback
        (⟨[("p", ⟨PARAMETER_BOOL, "f", "chk"⟩)],
          fun m => if m = "chk" then some (NodeAttr.methodVal (fun _ => false)) else none⟩ :
          PManagerState Bool)
        [⟨"p", PARAMETER_BOOL, true⟩]).1.successful = false ∧
    (onSetParametersCallback
        (⟨[("p", ⟨PARAMETER_BOOL, "f", "chk"⟩)],
          fun m => if m = "chk" then some (NodeAttr.methodVal (fun _ => false)) else none⟩ :
          PManagerState Bool)
        [⟨"p", PARAMETER_BOOL, true⟩]).1.reason =
      "Parameter " ++ sq ++ "p" ++ sq ++ " update validation failed" ∧
    (onSetParametersCallback
        (⟨[("p", ⟨PARAMETER_BOOL, "f", "chk"⟩)],
          fun m => if m = "chk" then some (NodeAttr.methodVal (fun _ => false)) else none⟩ :
          PManagerState Bool)
        [⟨"p", PARAMETER_BOOL, true⟩]).1.reason ≠ "validation failed for p" := by
  refine ⟨by decide, by decide, by decide⟩

/-- C4 amended: whenever batch processing reaches a declared, type-correct
item, then: if the validator reference of the declaration resolves to a callable
on the host and that callable rejects the candidate parameter, the callback
returns `successful = false` with reason `Parameter <name> update
validation failed` (name single-quoted) and stops with the state reached before the item (so the
validator is consulted before any backing-field write for the item); and if
the reference does not resolve to a callable (absent, empty, or not
callable), the item is accepted: its backing field is applied and
processing continues with the rest of the batch. -/
theorem validator_gate_and_reason {V : Type} (s s2 : PManagerState V)
    (pre post : List (Param V)) (p : Param V) (pd : ParamData)
    (hpre : specApplyBatch s pre = some s2)
    (hdecl : dictGet s2.paramsData p.name = some pd)
    (hty : p.type_ = pd.type) :
    (∀ f, getattrCallable s2.attrs pd.validator = some f → f p = false →
      onSetParametersCallback s (pre ++ p :: post) =
        ({ successful := false, reason := validationFailedReason p.name }, s2)) ∧
    (getattrCallable s2.attrs pd.validator = none →
      onSetParametersCallback s (pre ++ p :: post) =
        onSetParametersCallback
          { paramsData := s2.paramsData,
            attrs := applyVarName s2.attrs pd.var_name p.value } post) := by
  constructor
  · intro f hf hfp
    rw [onSet_append_of_specApply pre s s2 _ hpre]
    refine onSet_cons_valfail s2 p post pd hdecl (by simp [hty]) ?_
    rw [validatorPasses, hf]
    exact hfp
  · intro hnone
    rw [onSet_append_of_specApply pre s s2 _ hpre]
    refine onSet_cons_accept s2 p post pd hdecl (by simp [hty]) ?_
    rw [validatorPasses, hnone]
    simp

/-- Witness for the amended C4: a resolvable rejecting validator makes a
concrete batch fail with the exact reason text and no field write, and an
unresolvable validator reference lets the same update through. -/
theorem validator_gate_and_reason_witness :
    (onSetParametersCallback
        (⟨[("p", ⟨PARAMETER_BOOL, "f", "chk"⟩)],
          fun m => if m = "chk" then some (NodeAttr.methodVal (fun _ => false)) else none⟩ :
          PManagerState Bool)
        [⟨"p", PARAMETER_BOOL, true⟩] =
      ({ successful := false, reason := validationFailedReason "p" },
        ⟨[("p", ⟨PARAMETER_BOOL, "f", "chk"⟩)],
          fun m => if m = "chk" then some (NodeAttr.methodVal (fun _ => false)) else none⟩)) ∧
    (onSetParametersCallback
        (⟨[("p", ⟨PARAMETER_BOOL, "f", "chk"⟩)], oneField "f" false⟩ : PManagerState Bool)
        [⟨"p", PARAMETER_BOOL, true⟩] =
      onSetParametersCallback
        (⟨[("p", ⟨PARAMETER_BOOL, "f", "chk"⟩)],
          applyVarName (oneField "f" false) "f" true⟩ : PManagerState Bool) []) := by
  constructor
  · exact (validator_gate_and_reason
      (⟨[("p", ⟨PARAMETER_BOOL, "f", "chk"⟩)],
        fun m => if m = "chk" then some (NodeAttr.methodVal (fun _ => false)) else none⟩ :
        PManagerState Bool)
      (⟨[("p", ⟨PARAMETER_BOOL, "f", "chk"⟩)],
        fun m => if m = "chk" then some (NodeAttr.methodVal (fun _ => false)) else none⟩ :
        PManagerState Bool)
      [] [] ⟨"p", PARAMETER_BOOL, true⟩ ⟨PARAMETER_BOOL, "f", "chk"⟩
      rfl rfl rfl).1 (fun _ => false) rfl rfl
  · exact (validator_gate_and_reason
      (⟨[("p", ⟨PARAMETER_BOOL, "f", "chk"⟩)], oneField "f" false⟩ : PManagerState Bool)
      (⟨[("p", ⟨PARAMETER_BOOL, "f", "chk"⟩)], oneField "f" false⟩ : PManagerState Bool)
      [] [] ⟨"p", PARAMETER_BOOL, true⟩ ⟨PARAMETER_BOOL, "f", "chk"⟩
      rfl rfl rfl).2 rfl

/-- Counterexample for C5 as stated: a parameter declared with
`read_only = true` (visible on the forwarded descriptor), whose update is
well typed and has no validator, is accepted by the update callback and its
backing field is written: runtime updates to read-only parameters are not
rejected by the callback. -/
theorem read_only_not_enforced_cex :
    ((declareBoolParameter ⟨[], []⟩ "p" true "d" "c" true "f" "").declaredParams.map
        (fun d => d.descriptor.read_only) = [true]) ∧
    (onSetParametersCallback
        (⟨(declareBoolParameter ⟨[], []⟩ "p" true "d" "c" true "f" "").paramsData,
          oneField "f" false⟩ : PManagerState Bool)
        [⟨"p", PARAMETER_BOOL, true⟩]).1 = okSetParametersResult ∧
    getFieldValue
      ((onSetParametersCallback
          (⟨(declareBoolParameter ⟨[], []⟩ "p" true "d" "c" true "f" "").paramsData,
            oneField "f" false⟩ : PManagerState Bool)
          [⟨"p", PARAMETER_BOOL, true⟩]).2).attrs "f" = some true := by
  refine ⟨by decide, by decide, by decide⟩

/-- C5 amended: the read-only flag is only forwarded to the host
parameter descriptor of the host framework; it is not recorded in the
declaration store, so the behaviour of the update callback is identical whether a parameter
was declared read-only or not — enforcement is left entirely to the host
framework. -/
theorem read_only_flag_only_forwarded (st : BootState) (name : String) (dv : Bool)
    (desc cons : String) (ro1 ro2 : Bool) (vn vl : String) :
    (declareBoolParameter st name dv desc cons ro1 vn vl).paramsData =
      (declareBoolParameter st name dv desc cons ro2 vn vl).paramsData ∧
    (declareBoolParameter st name dv desc cons ro1 vn vl).declaredParams.map
        (fun d => d.descriptor.read_only) =
      st.declaredParams.map (fun d => d.descriptor.read_only) ++ [ro1] ∧
    (∀ (V : Type) (attrs : String → Option (NodeAttr V)) (params : List (Param V)),
      onSetParametersCallback
          ⟨(declareBoolParameter st name dv desc cons ro1 vn vl).paramsData, attrs⟩ params =
        onSetParametersCallback
          ⟨(declareBoolParameter st name dv desc cons ro2 vn vl).paramsData, attrs⟩ params) := by
  refine ⟨rfl, ?_, fun V attrs params => rfl⟩
  simp [declareBoolParameter]

/-- Counterexample for C6 as stated: declaring a name that is already
present in the store does not fail; it silently replaces the stored
declaration, so a stored declaration can be modified. -/
theorem redeclare_overwrites_cex :
    dictGet (addToData (addToData [] "a" PARAMETER_BOOL "x" "v1") "a"
        PARAMETER_INTEGER "y" "v2") "a" =
      some { type := PARAMETER_INTEGER, var_name := "y", validator := "v2" } ∧
    dictGet (addToData [] "a" PARAMETER_BOOL "x" "v1") "a" =
      some { type := PARAMETER_BOOL, var_name := "x", validator := "v1" } ∧
    ({ type := PARAMETER_INTEGER, var_name := "y", validator := "v2" } : ParamData) ≠
      { type := PARAMETER_BOOL, var_name := "x", validator := "v1" } := by
  refine ⟨by decide, by decide, by decide⟩

/-- C6 amended: a declare operation for a name already present in the store
silently overwrites the existing declaration in place (Python dict
assignment): afterwards the name maps to the new data and every other name
is unaffected. -/
theorem redeclare_silently_replaces (d : List (String × ParamData)) (nm : String)
    (t : Nat) (vn vl : String) :
    dictGet (addToData d nm t vn vl) nm =
      some { type := t, var_name := vn, validator := vl } ∧
    ∀ m, m ≠ nm → dictGet (addToData d nm t vn vl) m = dictGet d m :=
  ⟨dictGet_dictInsert_self d nm _, fun m hm => dictGet_dictInsert_ne d nm m _ hm⟩

/-- Witness for the amended C6: overwriting a present name in a concrete
two-entry store updates that entry and leaves the other untouched. -/
theorem redeclare_silently_replaces_witness :
    dictGet (addToData [("a", ⟨PARAMETER_BOOL, "x", "v1"⟩),
        ("b", ⟨PARAMETER_STRING, "y", "v2"⟩)] "a" PARAMETER_INTEGER "z" "v3") "a" =
      some { type := PARAMETER_INTEGER, var_name := "z", validator := "v3" } ∧
    dictGet (addToData [("a", ⟨PARAMETER_BOOL, "x", "v1"⟩),
        ("b", ⟨PARAMETER_STRING, "y", "v2"⟩)] "a" PARAMETER_INTEGER "z" "v3") "b" =
      dictGet [("a", ⟨PARAMETER_BOOL, "x", "v1"⟩),
        ("b", ⟨PARAMETER_STRING, "y", "v2"⟩)] "b" :=
  ⟨(redeclare_silently_replaces _ _ _ _ _).1,
    (redeclare_silently_replaces _ _ _ _ _).2 "b" (by decide)⟩

/-! Lemmas about the bulk loader. -/

theorem declareFromRecord_declared (st : BootState) (nm : String) (values : RawRecord)
    (st' : BootState) (h : declareFromRecord st nm values = Except.ok st') :
    ∃ d : NativeDecl, d.name = nm ∧ st'.declaredParams = st.declaredParams ++ [d] := by
  simp only [declareFromRecord, bind, Except.bind, pure, Except.pure] at h
  repeat' (first
    | exact Except.noConfusion h
    | (injection h with h'; subst h'; exact ⟨_, rfl, rfl⟩)
    | split at h)

theorem loaderGo_failure_split (l : List (String × RawRecord)) :
    ∀ (st outSt : BootState) (msg : String),
      loaderGo st l = (outSt, some msg) →
      ∃ pre nm values post e, l = pre ++ (nm, values) :: post ∧
        loaderOkRun st pre = some outSt ∧
        declareFromRecord outSt nm values = Except.error e ∧
        msg = "Failed to parse configuration of parameter " ++ nm ++ ": " ++ e := by
  induction l with
  | nil =>
    intro st outSt msg h
    exact absurd h (by simp [loaderGo])
  | cons x rest ih =>
    intro st outSt msg h
    obtain ⟨nm, values⟩ := x
    rw [loaderGo] at h
    cases hdr : declareFromRecord st nm values with
    | ok st1 =>
      simp only [hdr] at h
      obtain ⟨pre, nm2, values2, post, e, hsplit, hrun, herr, hmsg⟩ := ih st1 outSt msg h
      refine ⟨(nm, values) :: pre, nm2, values2, post, e, by rw [hsplit]; rfl, ?_, herr, hmsg⟩
      rw [loaderOkRun]
      simp only [hdr]
      exact hrun
    | error e =>
      simp only [hdr] at h
      rw [Prod.mk.injEq] at h
      obtain ⟨h1, h2⟩ := h
      refine ⟨[], nm, values, rest, e, rfl, ?_, ?_, ?_⟩
      · rw [loaderOkRun, h1]
      · rw [← h1]; exact hdr
      · exact (Option.some_inj.mp h2).symm

theorem loaderGo_failure_of_prefix (pre : List (String × RawRecord)) :
    ∀ (st stPre : BootState) (nm : String) (values : RawRecord)
      (post : List (String × RawRecord)) (e : String),
      loaderOkRun st pre = some stPre →
      declareFromRecord stPre nm values = Except.error e →
      loaderGo st (pre ++ (nm, values) :: post) =
        (stPre, some ("Failed to parse configuration of parameter " ++ nm ++ ": " ++ e)) := by
  induction pre with
  | nil =>
    intro st stPre nm values post e hrun herr
    simp only [loaderOkRun, Option.some.injEq] at hrun
    subst hrun
    rw [List.nil_append, loaderGo]
    simp only [herr]
  | cons x pre ih =>
    intro st stPre nm values post e hrun herr
    obtain ⟨nm0, values0⟩ := x
    rw [loaderOkRun] at hrun
    cases hdr : declareFromRecord st nm0 values0 with
    | ok st1 =>
      simp only [hdr] at hrun
      rw [List.cons_append, loaderGo]
      simp only [hdr]
      exact ih st1 stPre nm values post e hrun herr
    | error e0 =>
      simp only [hdr] at hrun
      exact Option.noConfusion hrun

theorem loaderGo_declared_names (l : List (String × RawRecord)) :
    ∀ st : BootState, ∃ pre, List.IsPrefix pre (l.map Prod.fst) ∧
      ((loaderGo st l).1.declaredParams.map NativeDecl.name) =
        st.declaredParams.map NativeDecl.name ++ pre := by
  induction l with
  | nil =>
    intro st
    exact ⟨[], List.nil_prefix, by simp [loaderGo]⟩
  | cons x rest ih =>
    intro st
    obtain ⟨nm, values⟩ := x
    rw [loaderGo]
    cases hdr : declareFromRecord st nm values with
    | ok st1 =>
      obtain ⟨d, hdnm, hdecl⟩ := declareFromRecord_declared st nm values st1 hdr
      obtain ⟨pre1, hpre1, hnames1⟩ := ih st1
      refine ⟨nm :: pre1, List.cons_prefix_cons.mpr ⟨rfl, hpre1⟩, ?_⟩
      simp only []
      rw [hnames1, hdecl]
      simp [hdnm]
    | error e =>
      exact ⟨[], List.nil_prefix, by simp⟩

theorem lexLeChars_iff (cs : List Char) :
    ∀ ds, lexLeChars cs ds = true ↔ ¬ List.Lex (fun c d : Char => c < d) ds cs := by
  induction cs with
  | nil =>
    intro ds
    simp only [lexLeChars]
    constructor
    · intro _ h
      nomatch h
    · intro _
      trivial
  | cons c cs ih =>
    intro ds
    cases ds with
    | nil =>
      simp only [lexLeChars]
      constructor
      · intro h
        exact absurd h (by simp)
      · intro h
        exact absurd List.Lex.nil h
    | cons d ds =>
      rw [lexLeChars]
      by_cases hcd : c < d
      · rw [if_pos hcd]
        constructor
        · intro _ hlex
          cases hlex with
          | cons h => exact absurd hcd (lt_irrefl _)
          | rel h => exact absurd hcd (asymm h)
        · intro _
          rfl
      · rw [if_neg hcd]
        by_cases hdc : d < c
        · rw [if_pos hdc]
          constructor
          · intro h
            exact absurd h (by simp)
          · intro h
            exact absurd (List.Lex.rel hdc) h
        · rw [if_neg hdc]
          have hcd : c = d := le_antisymm (not_lt.mp hdc) (not_lt.mp hcd)
          subst hcd
          rw [ih ds]
          constructor
          · intro h hlex
            cases hlex with
            | cons h2 => exact h h2
            | rel h2 => exact absurd h2 (lt_irrefl _)
          · intro h hlex
            exact h (List.Lex.cons hlex)

theorem strLeB_iff (a b : String) : strLeB a b = true ↔ a ≤ b := by
  rw [strLeB, lexLeChars_iff]
  constructor
  · intro h hba
    exact h (String.lt_iff_toList_lt.mp hba)
  · intro h hba
    exact h (String.lt_iff_toList_lt.mpr hba)

theorem sortedByName_pairwise (items : List (String × RawRecord)) :
    List.Pairwise (fun a b : String × RawRecord => a.1 ≤ b.1) (sortedByName items) := by
  haveI : IsTotal (String × RawRecord) (fun a b => strLeB a.1 b.1 = true) :=
    ⟨fun a b => by
      rcases le_total a.1 b.1 with h | h
      · exact Or.inl ((strLeB_iff _ _).mpr h)
      · exact Or.inr ((strLeB_iff _ _).mpr h)⟩
  haveI : IsTrans (String × RawRecord) (fun a b => strLeB a.1 b.1 = true) :=
    ⟨fun a b c hab hbc =>
      (strLeB_iff _ _).mpr (le_trans ((strLeB_iff _ _).mp hab) ((strLeB_iff _ _).mp hbc))⟩
  exact (List.sorted_insertionSort _ items).imp (fun hab => (strLeB_iff _ _).mp hab)

theorem sortedByName_names_sorted (items : List (String × RawRecord)) :
    List.Sorted (fun a b : String => a ≤ b) ((sortedByName items).map Prod.fst) :=
  List.pairwise_map.mpr (sortedByName_pairwise items)

theorem sortedByName_pairwise_lt (items : List (String × RawRecord))
    (hnd : (items.map Prod.fst).Nodup) :
    List.Pairwise (fun a b : String × RawRecord => a.1 < b.1) (sortedByName items) := by
  have hperm : (sortedByName items).Perm items := List.perm_insertionSort _ items
  have hndS : ((sortedByName items).map Prod.fst).Nodup :=
    ((hperm.map Prod.fst).nodup_iff).mpr hnd
  have hne : List.Pairwise (fun a b : String × RawRecord => a.1 ≠ b.1) (sortedByName items) :=
    List.pairwise_map.mp hndS
  exact ((sortedByName_pairwise items).and hne).imp
    (fun hab => lt_of_le_of_ne hab.1 hab.2)

theorem sortedByName_perm_eq (items1 items2 : List (String × RawRecord))
    (hperm : items1.Perm items2) (hnd : (items1.map Prod.fst).Nodup) :
    sortedByName items1 = sortedByName items2 := by
  have hnd2 : (items2.map Prod.fst).Nodup := ((hperm.map Prod.fst).nodup_iff).mp hnd
  have hp12 : (sortedByName items1).Perm (sortedByName items2) :=
    ((List.perm_insertionSort _ items1).trans hperm).trans
      (List.perm_insertionSort _ items2).symm
  haveI : IsAntisymm (String × RawRecord) (fun a b => a.1 < b.1) :=
    ⟨fun a b hab hba => absurd hba (lt_asymm hab)⟩
  exact List.eq_of_perm_of_sorted hp12 (sortedByName_pairwise_lt items1 hnd)
    (sortedByName_pairwise_lt items2 hnd2)

/-- a well-formed raw string-parameter record, used by concrete loader
examples -/
def sampleStrRecord (dv : String) : RawRecord :=
  [("type", FieldVal.scalar "string"), ("default_value", FieldVal.scalar dv),
   ("description", FieldVal.scalar "d"), ("constraints", FieldVal.scalar "c"),
   ("read_only", FieldVal.scalar "false")]

/-- a raw bool-parameter record whose `read_only` field holds the
unparseable boolean text `yes` -/
def sampleBoolRecordYes : RawRecord :=
  [("type", FieldVal.scalar "bool"), ("default_value", FieldVal.scalar "true"),
   ("description", FieldVal.scalar "d"), ("constraints", FieldVal.scalar "c"),
   ("read_only", FieldVal.scalar "yes")]

/-- C7: the bulk loader declares parameters in lexicographically sorted name
order, independently of the native iteration order of the input mapping: the load
result is invariant under permutation of the input (given unique names, as a
mapping guarantees), and the sequence of declared names is sorted. -/
theorem bulk_load_sorted_and_deterministic (st : BootState)
    (items1 items2 : List (String × RawRecord))
    (hperm : items1.Perm items2) (hnd : (items1.map Prod.fst).Nodup) :
    parseParamsItems st items1 = parseParamsItems st items2 ∧
    List.Sorted (fun a b : String => a ≤ b)
      ((parseParamsItems ⟨st.paramsData, []⟩ items1).1.declaredParams.map
        NativeDecl.name) := by
  constructor
  · rw [parseParamsItems, parseParamsItems, sortedByName_perm_eq items1 items2 hperm hnd]
  · obtain ⟨pre, hpre, hnames⟩ :=
      loaderGo_declared_names (sortedByName items1) ⟨st.paramsData, []⟩
    rw [parseParamsItems, hnames]
    simp only [List.map_nil, List.nil_append]
    exact List.Pairwise.sublist hpre.sublist (sortedByName_names_sorted items1)

/-- Witness for C7: a two-entry mapping with keys `z_param` and `a_param`
loads identically in either iteration order, and the declarations happen in
the order `a_param`, `z_param`. -/
theorem bulk_load_sorted_and_deterministic_witness :
    (parseParamsItems ⟨[], []⟩
        [("z_param", sampleStrRecord "z"), ("a_param", sampleStrRecord "a")] =
      parseParamsItems ⟨[], []⟩
        [("a_param", sampleStrRecord "a"), ("z_param", sampleStrRecord "z")]) ∧
    List.Sorted (fun a b : String => a ≤ b)
      ((parseParamsItems ⟨[], []⟩
          [("z_param", sampleStrRecord "z"),
            ("a_param", sampleStrRecord "a")]).1.declaredParams.map NativeDecl.name) ∧
    (parseParamsItems ⟨[], []⟩
        [("z_param", sampleStrRecord "z"),
          ("a_param", sampleStrRecord "a")]).1.declaredParams.map NativeDecl.name =
      ["a_param", "z_param"] := by
  refine ⟨?_, ?_, ?_⟩
  · exact (bulk_load_sorted_and_deterministic ⟨[], []⟩
      [("z_param", sampleStrRecord "z"), ("a_param", sampleStrRecord "a")]
      [("a_param", sampleStrRecord "a"), ("z_param", sampleStrRecord "z")]
      (by decide) (by decide)).1
  · exact (bulk_load_sorted_and_deterministic ⟨[], []⟩
      [("z_param", sampleStrRecord "z"), ("a_param", sampleStrRecord "a")]
      [("a_param", sampleStrRecord "a"), ("z_param", sampleStrRecord "z")]
      (by decide) (by decide)).2
  · decide

/-- C8: a bulk load fails exactly when, walking the sorted input, some
record is malformed: the error message names the parameter of that record, the
resulting store state is exactly the state after the successful records
strictly before it (earlier declarations remain, no rollback), and no record
at or after the failing one is declared. -/
theorem bulk_load_aborts_at_first_malformed (st : BootState)
    (items : List (String × RawRecord)) :
    (∀ outSt msg, parseParamsItems st items = (outSt, some msg) →
      ∃ pre nm values post e, sortedByName items = pre ++ (nm, values) :: post ∧
        loaderOkRun st pre = some outSt ∧
        declareFromRecord outSt nm values = Except.error e ∧
        msg = "Failed to parse configuration of parameter " ++ nm ++ ": " ++ e) ∧
    (∀ pre nm values post stPre e,
      sortedByName items = pre ++ (nm, values) :: post →
      loaderOkRun st pre = some stPre →
      declareFromRecord stPre nm values = Except.error e →
      parseParamsItems st items =
        (stPre, some ("Failed to parse configuration of parameter " ++ nm ++ ": " ++ e))) := by
  constructor
  · intro outSt msg h
    exact loaderGo_failure_split (sortedByName items) st outSt msg h
  · intro pre nm values post stPre e hsplit hrun herr
    rw [parseParamsItems, hsplit]
    exact loaderGo_failure_of_prefix pre st stPre nm values post e hrun herr

/-- Witness for C8: loading a mapping whose sorted order is `a_good` then
`b_bad` (unsupported type tag) declares `a_good`, stops at `b_bad`, and
reports an error naming `b_bad`. -/
theorem bulk_load_aborts_at_first_malformed_witness :
    parseParamsItems ⟨[], []⟩
        [("b_bad", [("type", FieldVal.scalar "foo")]), ("a_good", sampleStrRecord "a")] =
      (declareStringParameter ⟨[], []⟩ "a_good" "a" "d" "c" false "" "",
        some ("Failed to parse configuration of parameter " ++ "b_bad" ++ ": " ++
          ("Unsupported parameter type: " ++ "foo"))) :=
  (bulk_load_aborts_at_first_malformed ⟨[], []⟩
      [("b_bad", [("type", FieldVal.scalar "foo")]), ("a_good", sampleStrRecord "a")]).2
    [("a_good", sampleStrRecord "a")] "b_bad" [("type", FieldVal.scalar "foo")] []
    (declareStringParameter ⟨[], []⟩ "a_good" "a" "d" "c" false "" "")
    ("Unsupported parameter type: " ++ "foo")
    (by decide) rfl rfl

/-- C9: the boolean-text parser accepts exactly `true`/`True` as true and
`false`/`False` as false and rejects every other string with a descriptive
error, and during a bulk load such a rejection surfaces as a declaration
parse failure naming the parameter (shown on a concrete record whose
`read_only` field is `yes`). -/
theorem bool_text_parsing :
    (∀ w, parseBoolStr w = Except.ok true ↔ (w = "true" ∨ w = "True")) ∧
    (∀ w, parseBoolStr w = Except.ok false ↔ (w = "false" ∨ w = "False")) ∧
    (∀ w, w ≠ "true" → w ≠ "True" → w ≠ "false" → w ≠ "False" →
      parseBoolStr w = Except.error ("Unknown boolean text representation: " ++ w)) ∧
    parseParamsItems ⟨[], []⟩ [("p", sampleBoolRecordYes)] =
      (⟨[], []⟩, some ("Failed to parse configuration of parameter " ++ "p" ++ ": " ++
        ("Unknown boolean text representation: " ++ "yes"))) := by
  refine ⟨?_, ?_, ?_, by decide⟩
  · intro w
    constructor
    · intro h
      rw [parseBoolStr] at h
      split_ifs at h with h1 h2
      all_goals first
        | exact h1
        | exact absurd h (by simp)
    · intro h
      rw [parseBoolStr, if_pos h]
  · intro w
    constructor
    · intro h
      rw [parseBoolStr] at h
      split_ifs at h with h1 h2
      all_goals first
        | exact h2
        | exact absurd h (by simp)
    · intro h
      have h1 : ¬(w = "true" ∨ w = "True") := by
        rcases h with rfl | rfl <;> rintro (hc | hc) <;> simp at hc
      rw [parseBoolStr, if_neg h1, if_pos h]
  · intro w h1 h2 h3 h4
    have ha : ¬(w = "true" ∨ w = "True") := by
      rintro (h | h)
      · exact h1 h
      · exact h2 h
    have hb : ¬(w = "false" ∨ w = "False") := by
      rintro (h | h)
      · exact h3 h
      · exact h4 h
    rw [parseBoolStr, if_neg ha, if_neg hb]

/-- Witness for C9: concrete evaluations of the boolean-text parser through
the clauses of the theorem, including the rejection of `yes`. -/
theorem bool_text_parsing_witness :
    parseBoolStr "True" = Except.ok true ∧
    parseBoolStr "false" = Except.ok false ∧
    parseBoolStr "yes" = Except.error ("Unknown boolean text representation: " ++ "yes") :=
  ⟨(bool_text_parsing.1 "True").mpr (Or.inr rfl),
    (bool_text_parsing.2.1 "false").mpr (Or.inl rfl),
    bool_text_parsing.2.2.1 "yes" (by decide) (by decide) (by decide) (by decide)⟩

end PM
